import Mathlib

/-!
# BalancesStrategy (strategy_balances.go)

A shallow embedding of the holdings cache of `BalancesStrategy`:
`NewBalancesStrategy`, `Store`, `Load`, `Currency`, `tick` and the event
callbacks, over an association-list model of `sync.Map`.

Conventions.

* `strings.ToLower` belongs to the Go standard library. Every function that
  calls it takes it as the argument `ToLower`, so the general theorems hold for
  whatever that function computes. `asciiToLower` is its behaviour on ASCII
  strings and is the function used at concrete inputs.
* Two names are *equal ignoring letter case* when `ToLower` sends them to the
  same key (`sameName`).
* A Go `panic` is the `Except.error` branch of a result.
* A `float64` amount is carried as its bit pattern; no function here inspects it.
-/

namespace Dola

/-! ## The account package's data -/

/-- The type currency.Code, reduced to what its String method returns. The
zero value renders as the empty string. -/
structure Code where
  Symbol : String
deriving DecidableEq, Repr

/-- The method String of currency.Code. -/
def Code.String (c : Code) : String := c.Symbol

/-- The type account.Balance: one currency line of a sub-account. -/
structure Balance where
  CurrencyName : Code
  TotalValue : Nat
  Hold : Nat
deriving DecidableEq, Repr

/-- The type account.SubAccount. -/
structure SubAccount where
  ID : String
  AssetType : String
  Currencies : List Balance
deriving DecidableEq, Repr

/-- The type account.Holdings: the snapshot of one venue. -/
structure Holdings where
  Exchange : String
  Accounts : List SubAccount
deriving DecidableEq, Repr

/-- The zero value of account.Balance (`var empty account.Balance`). -/
def Balance.zero : Balance := ⟨⟨""⟩, 0, 0⟩

/-- The zero value of account.Holdings, what the named result `holdings` of
Load holds until it is assigned. -/
def Holdings.zero : Holdings := ⟨"", []⟩

/-! ## sync.Map -/

/-- A value of type `interface{}` as held by the map: an account.Holdings, or
a value of some other dynamic type (named by its `%T` rendering). -/
inductive Any where
  | holdings (h : Holdings)
  | other (typeName : String)
deriving DecidableEq, Repr

/-- A sync.Map whose keys are strings, as the list of its entries; a key
occurs at most once in a map built by `SyncMap.Store` from `SyncMap.empty`,
and lookup reads the first entry of a key in any case. -/
structure SyncMap where
  entries : List (String × Any)
deriving DecidableEq, Repr

/-- The zero map `sync.Map{}`. -/
def SyncMap.empty : SyncMap := ⟨[]⟩

/-- The method Load of sync.Map: the value of the key, if present. -/
def SyncMap.Load (m : SyncMap) (key : String) : Option Any :=
  m.entries.lookup key

/-- The method Store of sync.Map: sets the value of the key, replacing the
entry the key had. -/
def SyncMap.Store (m : SyncMap) (key : String) (value : Any) : SyncMap :=
  ⟨(key, value) :: m.entries.filter (fun e => e.1 != key)⟩

/-! ## Errors, venues, the strategy -/

/-- The three error values declared by the file. -/
inductive Error where
  | ErrAccountIndexOutOfRange
  | ErrCurrencyNotFound
  | ErrHoldingsNotFound
deriving DecidableEq, Repr

/-- The embedded TickerStrategy, reduced to its configuration: `Interval` is
a time.Duration (nanoseconds). Its TickFunc is always `tick`, and its registry
of timers is not read by any function embedded here. -/
structure TickerStrategy where
  Interval : Int
deriving DecidableEq, Repr

/-- The type BalancesStrategy. -/
structure BalancesStrategy where
  balances : SyncMap
  ticker : TickerStrategy
deriving DecidableEq, Repr

/-- A venue as `tick` sees it: its name and what its UpdateAccountInfo call
returns for the spot asset, a holdings value together with a nil (`none`) or
non-nil error. -/
structure IBotExchange where
  GetName : String
  UpdateAccountInfo : Holdings × Option String
deriving DecidableEq, Repr

/-- One record written through `Msg(log.Error()...)`: the venue name and the
error text. -/
structure LogEvent where
  exchange : String
  err : String
deriving DecidableEq, Repr

/-- What strings.ToLower does to an ASCII string: the letters A to Z become
a to z, every other character stays. -/
def asciiToLower (s : String) : String := String.mk (s.data.map Char.toLower)

/-- Two names are equal ignoring letter case: they have the same lower-case
form, the key both are looked up under. -/
def sameName (ToLower : String → String) (n m : String) : Prop :=
  ToLower n = ToLower m

instance (ToLower : String → String) (n m : String) : Decidable (sameName ToLower n m) :=
  inferInstanceAs (Decidable (ToLower n = ToLower m))

deriving instance DecidableEq for Except

/-! ## The methods of BalancesStrategy -/

/-- NewBalancesStrategy: an empty cache and a ticker with the given interval. -/
def NewBalancesStrategy (refreshRate : Int) : BalancesStrategy :=
  { balances := SyncMap.empty, ticker := { Interval := refreshRate } }

/-- Store: puts the holdings under the lower-cased exchange name. -/
def Store (ToLower : String → String) (b : BalancesStrategy) (holdings : Holdings) :
    BalancesStrategy :=
  let key := ToLower holdings.Exchange
  { b with balances := b.balances.Store key (Any.holdings holdings) }

/-- Load: looks the lower-cased name up; a value that is not an
account.Holdings makes it panic. -/
def Load (ToLower : String → String) (b : BalancesStrategy) (exchangeName : String) :
    Except String (Holdings × Bool) :=
  let key := ToLower exchangeName
  match b.balances.Load key with
  | some (Any.holdings holdings) => Except.ok (holdings, true)
  | some (Any.other typeName) =>
      Except.error ("have " ++ typeName ++ ", want account.Holdings")
  | none => Except.ok (Holdings.zero, false)

/-- The inner loop of Currency: the first balance of the list whose currency
code renders as `code`. -/
def scanCurrencies (code : String) : List Balance → Option Balance
  | [] => none
  | balance :: rest =>
      if balance.CurrencyName.String = code then some balance
      else scanCurrencies code rest

/-- The outer loop of Currency: sub-accounts in order; one whose ID is
`accountID` has its currencies scanned, and the scan goes on to the next
sub-account when that finds nothing. -/
def scanAccounts (code accountID : String) : List SubAccount → Option Balance
  | [] => none
  | sub :: rest =>
      if sub.ID = accountID then
        match scanCurrencies code sub.Currencies with
        | some balance => some balance
        | none => scanAccounts code accountID rest
      else scanAccounts code accountID rest

/-- Currency: the balance and the error (`none` is nil). -/
def Currency (ToLower : String → String) (b : BalancesStrategy)
    (exchangeName code accountID : String) : Except String (Balance × Option Error) :=
  match Load ToLower b exchangeName with
  | Except.error msg => Except.error msg
  | Except.ok (holdings, loaded) =>
      if !loaded then Except.ok (Balance.zero, some Error.ErrHoldingsNotFound)
      else
        match scanAccounts code accountID holdings.Accounts with
        | some balance => Except.ok (balance, none)
        | none => Except.ok (Balance.zero, some Error.ErrCurrencyNotFound)

/-- The method tick: fetches the account info, logs the error if there is
one, and stores the holdings it got; the result is the new state and the log
records written. -/
def tick (ToLower : String → String) (b : BalancesStrategy) (e : IBotExchange) :
    BalancesStrategy × List LogEvent :=
  let (holdings, err) := e.UpdateAccountInfo
  let logged : List LogEvent :=
    match err with
    | some msg => [{ exchange := e.GetName, err := msg }]
    | none => []
  (Store ToLower b holdings, logged)

/-! ## The Strategy interface: event callbacks -/

/-- The eight event callbacks. -/
inductive Callback where
  | OnFunding | OnPrice | OnKline | OnOrderBook
  | OnOrder | OnModify | OnBalanceChange | OnUnrecognized
deriving DecidableEq, Repr

/-- OnFunding: returns nil. -/
def OnFunding {X : Type} (b : BalancesStrategy) (_e : IBotExchange) (_x : X) :
    BalancesStrategy × Option Error := (b, none)

/-- OnPrice: returns nil. -/
def OnPrice {X : Type} (b : BalancesStrategy) (_e : IBotExchange) (_x : X) :
    BalancesStrategy × Option Error := (b, none)

/-- OnKline: returns nil. -/
def OnKline {X : Type} (b : BalancesStrategy) (_e : IBotExchange) (_x : X) :
    BalancesStrategy × Option Error := (b, none)

/-- OnOrderBook: returns nil. -/
def OnOrderBook {X : Type} (b : BalancesStrategy) (_e : IBotExchange) (_x : X) :
    BalancesStrategy × Option Error := (b, none)

/-- OnOrder: returns nil. -/
def OnOrder {X : Type} (b : BalancesStrategy) (_e : IBotExchange) (_x : X) :
    BalancesStrategy × Option Error := (b, none)

/-- OnModify: returns nil. -/
def OnModify {X : Type} (b : BalancesStrategy) (_e : IBotExchange) (_x : X) :
    BalancesStrategy × Option Error := (b, none)

/-- OnBalanceChange: returns nil. -/
def OnBalanceChange {X : Type} (b : BalancesStrategy) (_e : IBotExchange) (_x : X) :
    BalancesStrategy × Option Error := (b, none)

/-- OnUnrecognized: returns nil. -/
def OnUnrecognized {X : Type} (b : BalancesStrategy) (_e : IBotExchange) (_x : X) :
    BalancesStrategy × Option Error := (b, none)

/-- Dispatch of an event to the callback of its kind. -/
def Callback.run {X : Type} (c : Callback) (b : BalancesStrategy) (e : IBotExchange) (x : X) :
    BalancesStrategy × Option Error :=
  match c with
  | Callback.OnFunding => Dola.OnFunding b e x
  | Callback.OnPrice => Dola.OnPrice b e x
  | Callback.OnKline => Dola.OnKline b e x
  | Callback.OnOrderBook => Dola.OnOrderBook b e x
  | Callback.OnOrder => Dola.OnOrder b e x
  | Callback.OnModify => Dola.OnModify b e x
  | Callback.OnBalanceChange => Dola.OnBalanceChange b e x
  | Callback.OnUnrecognized => Dola.OnUnrecognized b e x

/-- One call on a BalancesStrategy: a method of the cache, a tick, or an
event callback with its payload. -/
inductive Op (X : Type) where
  | Store (holdings : Holdings)
  | Load (exchangeName : String)
  | Currency (exchangeName code accountID : String)
  | tick (e : IBotExchange)
  | event (c : Callback) (e : IBotExchange) (x : X)

/-- The state a call leaves behind. Load and Currency only read the map, so
the strategy they leave is the one they were called on. -/
def Op.run {X : Type} (ToLower : String → String) (b : BalancesStrategy) :
    Op X → BalancesStrategy
  | Op.Store holdings => Dola.Store ToLower b holdings
  | Op.Load _ => b
  | Op.Currency _ _ _ => b
  | Op.tick e => (Dola.tick ToLower b e).1
  | Op.event c e x => (c.run b e x).1

/-- What a callback returned, `result`, is that of a no-op on the cache `b`:
the error is nil and Load returns for every name what it returned before. -/
def isNoop (ToLower : String → String) (b : BalancesStrategy)
    (result : BalancesStrategy × Option Error) : Prop :=
  result.2 = none ∧ ∀ n : String, Load ToLower result.1 n = Load ToLower b n

/-! ## The scan of Currency, flattened -/

/-- The entries Currency passes over, in the order it passes over them: for
each sub-account in list order, each of its balances in list order, paired
with the sub-account's ID. -/
def scanOrder (h : Holdings) : List (String × Balance) :=
  h.Accounts.flatMap (fun sub => sub.Currencies.map (fun balance => (sub.ID, balance)))

/-- An entry of the scan matches: the sub-account's ID is `accountID` and the
currency code renders as `code`, both exactly. -/
def isMatch (code accountID : String) (entry : String × Balance) : Prop :=
  entry.1 = accountID ∧ entry.2.CurrencyName.String = code

instance (code accountID : String) (entry : String × Balance) :
    Decidable (isMatch code accountID entry) :=
  inferInstanceAs (Decidable (_ ∧ _))

/-! ## Reachable states -/

/-- The dynamic type of a map value is account.Holdings: the test behind the
type assertion of Load. -/
def Any.isHoldings : Any → Bool
  | Any.holdings _ => true
  | Any.other _ => false

/-- Every value held in the balances map is an account.Holdings. -/
def onlyHoldings (b : BalancesStrategy) : Prop :=
  ∀ entry ∈ b.balances.entries, entry.2.isHoldings = true

instance (b : BalancesStrategy) : Decidable (onlyHoldings b) :=
  inferInstanceAs (Decidable (∀ entry ∈ b.balances.entries, entry.2.isHoldings = true))

/-- The state of a strategy built by NewBalancesStrategy after a sequence of
calls, run in order. -/
def runOps {X : Type} (ToLower : String → String) (refreshRate : Int) (ops : List (Op X)) :
    BalancesStrategy :=
  ops.foldl (Op.run ToLower) (NewBalancesStrategy refreshRate)

/-! ## Lemmas on the map -/

theorem lookup_cons_ite (k k0 : String) (v0 : Any) (entries : List (String × Any)) :
    ((k0, v0) :: entries).lookup k = if k = k0 then some v0 else entries.lookup k := by
  rw [List.lookup_cons]
  by_cases h : k = k0
  · have hb : (k == k0) = true := by simp [h]
    rw [hb, if_pos h]
  · have hb : (k == k0) = false := by simp [h]
    rw [hb, if_neg h]

theorem lookup_filter_ne (key k : String) (entries : List (String × Any)) (hk : k ≠ key) :
    (entries.filter (fun e => e.1 != key)).lookup k = entries.lookup k := by
  induction entries with
  | nil => rfl
  | cons entry rest ih =>
    obtain ⟨k0, v0⟩ := entry
    by_cases h0 : k0 = key
    · have hk0 : k ≠ k0 := by rw [h0]; exact hk
      have hf : ((k0, v0) :: rest).filter (fun e => e.1 != key) =
          rest.filter (fun e => e.1 != key) := by
        simp [List.filter_cons, h0]
      rw [hf, ih, lookup_cons_ite, if_neg hk0]
    · have hf : ((k0, v0) :: rest).filter (fun e => e.1 != key) =
          (k0, v0) :: rest.filter (fun e => e.1 != key) := by
        simp [List.filter_cons, h0]
      rw [hf, lookup_cons_ite, lookup_cons_ite, ih]

theorem SyncMap.load_of_store (m : SyncMap) (key k : String) (v : Any) :
    (m.Store key v).Load k = if k = key then some v else m.Load k := by
  unfold SyncMap.Store SyncMap.Load
  rw [lookup_cons_ite]
  by_cases hk : k = key
  · rw [if_pos hk, if_pos hk]
  · rw [if_neg hk, if_neg hk, lookup_filter_ne key k m.entries hk]

theorem Load_Store (ToLower : String → String) (b : BalancesStrategy) (h : Holdings)
    (n : String) :
    Load ToLower (Store ToLower b h) n =
      if ToLower n = ToLower h.Exchange then Except.ok (h, true) else Load ToLower b n := by
  by_cases hk : ToLower n = ToLower h.Exchange
  · simp [Load, Store, SyncMap.load_of_store, hk]
  · simp [Load, Store, SyncMap.load_of_store, hk]

theorem Load_NewBalancesStrategy (ToLower : String → String) (refreshRate : Int) (n : String) :
    Load ToLower (NewBalancesStrategy refreshRate) n = Except.ok (Holdings.zero, false) := by
  simp [Load, NewBalancesStrategy, SyncMap.Load, SyncMap.empty]

theorem Load_foldl_Store_of_ne (ToLower : String → String) (stored : List Holdings)
    (b : BalancesStrategy) (n : String)
    (hn : ∀ h ∈ stored, ToLower n ≠ ToLower h.Exchange) :
    Load ToLower (stored.foldl (Store ToLower) b) n = Load ToLower b n := by
  induction stored generalizing b with
  | nil => rfl
  | cons h rest ih =>
    rw [List.foldl_cons, ih _ (fun x hx => hn x (List.mem_cons_of_mem _ hx)), Load_Store,
      if_neg (hn h (List.mem_cons_self _ _))]

theorem Currency_of_panic (ToLower : String → String) (b : BalancesStrategy)
    (exchangeName code accountID msg : String)
    (hl : Load ToLower b exchangeName = Except.error msg) :
    Currency ToLower b exchangeName code accountID = Except.error msg := by
  unfold Currency
  rw [hl]

theorem Currency_of_missing (ToLower : String → String) (b : BalancesStrategy)
    (exchangeName code accountID : String) (holdings : Holdings)
    (hl : Load ToLower b exchangeName = Except.ok (holdings, false)) :
    Currency ToLower b exchangeName code accountID =
      Except.ok (Balance.zero, some Error.ErrHoldingsNotFound) := by
  unfold Currency
  rw [hl]
  rfl

theorem Currency_of_loaded (ToLower : String → String) (b : BalancesStrategy)
    (exchangeName code accountID : String) (holdings : Holdings)
    (hl : Load ToLower b exchangeName = Except.ok (holdings, true)) :
    Currency ToLower b exchangeName code accountID =
      match scanAccounts code accountID holdings.Accounts with
      | some balance => Except.ok (balance, none)
      | none => Except.ok (Balance.zero, some Error.ErrCurrencyNotFound) := by
  unfold Currency
  rw [hl]
  rfl

/-! ## Lemmas on the scan -/

theorem scanCurrencies_eq_find (code : String) (currencies : List Balance) :
    scanCurrencies code currencies =
      currencies.find? (fun balance => decide (balance.CurrencyName.String = code)) := by
  induction currencies with
  | nil => rfl
  | cons balance rest ih =>
    by_cases hc : balance.CurrencyName.String = code
    · simp [scanCurrencies, List.find?_cons, hc]
    · simp [scanCurrencies, List.find?_cons, hc, ih]

theorem scanAccounts_eq_find (code accountID : String) (accounts : List SubAccount) :
    scanAccounts code accountID accounts =
      ((scanOrder ⟨"", accounts⟩).find? (fun entry => decide (isMatch code accountID entry))).map
        Prod.snd := by
  induction accounts with
  | nil => rfl
  | cons sub rest ih =>
    have ih2 : scanAccounts code accountID rest =
        ((rest.flatMap (fun sub => sub.Currencies.map (fun balance => (sub.ID, balance)))).find?
          (fun entry => decide (isMatch code accountID entry))).map Prod.snd := ih
    simp only [scanOrder, List.flatMap_cons, List.find?_append, List.find?_map]
    by_cases hid : sub.ID = accountID
    · have hfun : ((fun entry : String × Balance => decide (isMatch code accountID entry)) ∘
          fun balance => (sub.ID, balance)) =
          fun balance => decide (balance.CurrencyName.String = code) := by
        funext balance
        simp [isMatch, hid]
      rw [hfun, ← scanCurrencies_eq_find]
      cases hs : scanCurrencies code sub.Currencies with
      | none => simp [scanAccounts, hid, hs, ih2]
      | some balance => simp [scanAccounts, hid, hs]
    · have hfun : ((fun entry : String × Balance => decide (isMatch code accountID entry)) ∘
          fun balance => (sub.ID, balance)) = fun _ => false := by
        funext balance
        simp [isMatch, hid]
      have hnone : sub.Currencies.find? (fun _ => false) = none :=
        List.find?_eq_none.2 (fun _ _ hx => Bool.noConfusion hx)
      rw [hfun, hnone, Option.map_none', Option.none_or, ← ih2]
      simp [scanAccounts, hid]

theorem scanOrder_eq (h : Holdings) : scanOrder h = scanOrder ⟨"", h.Accounts⟩ := rfl

theorem mem_scanOrder (h : Holdings) (entry : String × Balance) :
    entry ∈ scanOrder h ↔
      ∃ sub ∈ h.Accounts, sub.ID = entry.1 ∧ entry.2 ∈ sub.Currencies := by
  obtain ⟨sid, balance⟩ := entry
  simp only [scanOrder, List.mem_flatMap, List.mem_map, Prod.mk.injEq]
  constructor
  · rintro ⟨sub, hsub, bal, hbal, h1, h2⟩
    exact ⟨sub, hsub, h1, h2 ▸ hbal⟩
  · rintro ⟨sub, hsub, h1, h2⟩
    exact ⟨sub, hsub, balance, h2, h1, rfl⟩

theorem scanAccounts_eq_none (code accountID : String) (h : Holdings) :
    scanAccounts code accountID h.Accounts = none ↔
      ¬ ∃ sub ∈ h.Accounts, sub.ID = accountID ∧
          ∃ balance ∈ sub.Currencies, balance.CurrencyName.String = code := by
  rw [scanAccounts_eq_find, Option.map_eq_none', List.find?_eq_none, ← scanOrder_eq]
  constructor
  · rintro hall ⟨sub, hsub, hid, balance, hbal, hcode⟩
    have hmem : (sub.ID, balance) ∈ scanOrder h :=
      (mem_scanOrder h (sub.ID, balance)).2 ⟨sub, hsub, rfl, hbal⟩
    exact hall _ hmem (by simp [isMatch, hid, hcode])
  · rintro hno entry hentry hm
    obtain ⟨sub, hsub, hid, hbal⟩ := (mem_scanOrder h entry).1 hentry
    have hm2 : isMatch code accountID entry := by simpa using hm
    exact hno ⟨sub, hsub, hid.trans hm2.1, entry.2, hbal, hm2.2⟩

theorem scanAccounts_eq_some (code accountID : String) (h : Holdings) (balance : Balance)
    (hs : scanAccounts code accountID h.Accounts = some balance) :
    ∃ before after, scanOrder h = before ++ (accountID, balance) :: after ∧
      isMatch code accountID (accountID, balance) ∧
      ∀ entry ∈ before, ¬ isMatch code accountID entry := by
  rw [scanAccounts_eq_find, Option.map_eq_some', ← scanOrder_eq] at hs
  obtain ⟨entry, hfind, hsnd⟩ := hs
  obtain ⟨hp, before, after, hsplit, hbefore⟩ := List.find?_eq_some.1 hfind
  have hm : isMatch code accountID entry := by simpa using hp
  have hentry : entry = (accountID, balance) := Prod.ext hm.1 hsnd
  subst hentry
  refine ⟨before, after, hsplit, hm, ?_⟩
  intro x hx hmx
  have := hbefore x hx
  simp [hmx] at this

theorem tick_state (ToLower : String → String) (b : BalancesStrategy) (e : IBotExchange) :
    (tick ToLower b e).1 = Store ToLower b e.UpdateAccountInfo.1 := rfl

theorem Callback.run_eq {X : Type} (c : Callback) (b : BalancesStrategy) (e : IBotExchange)
    (x : X) : c.run b e x = (b, none) := by
  cases c <;> rfl

theorem Load_foldl_Store_of_mem (ToLower : String → String) (order : List Holdings)
    (b : BalancesStrategy) (x : Holdings)
    (hpw : order.Pairwise (fun y z => ¬ sameName ToLower y.Exchange z.Exchange))
    (hx : x ∈ order) :
    Load ToLower (order.foldl (Store ToLower) b) x.Exchange = Except.ok (x, true) := by
  induction order generalizing b with
  | nil => cases hx
  | cons y rest ih =>
    obtain ⟨hy, hrest⟩ := List.pairwise_cons.1 hpw
    rw [List.foldl_cons]
    rcases List.mem_cons.1 hx with hxy | hxr
    · subst hxy
      rw [Load_foldl_Store_of_ne ToLower rest _ x.Exchange (fun z hz => hy z hz), Load_Store]
      exact if_pos rfl
    · exact ih _ hrest hxr

theorem Load_congr (ToLower : String → String) (b : BalancesStrategy) (n1 n2 : String)
    (hn : ToLower n1 = ToLower n2) : Load ToLower b n1 = Load ToLower b n2 := by
  unfold Load
  rw [hn]

theorem mem_of_lookup_eq_some (k : String) (v : Any) (entries : List (String × Any))
    (hl : entries.lookup k = some v) : (k, v) ∈ entries := by
  induction entries with
  | nil => cases hl
  | cons entry rest ih =>
    obtain ⟨k0, v0⟩ := entry
    rw [lookup_cons_ite] at hl
    by_cases hk : k = k0
    · rw [if_pos hk] at hl
      cases hl
      rw [hk]
      exact List.mem_cons_self _ _
    · rw [if_neg hk] at hl
      exact List.mem_cons_of_mem _ (ih hl)

theorem onlyHoldings_NewBalancesStrategy (refreshRate : Int) :
    onlyHoldings (NewBalancesStrategy refreshRate) := by
  intro entry hentry
  cases hentry

theorem onlyHoldings_Store (ToLower : String → String) (b : BalancesStrategy) (h : Holdings)
    (hb : onlyHoldings b) : onlyHoldings (Store ToLower b h) := by
  intro entry hentry
  rcases List.mem_cons.1 hentry with hnew | hold
  · rw [hnew]
    rfl
  · exact hb entry (List.mem_filter.1 hold).1

theorem onlyHoldings_run {X : Type} (ToLower : String → String) (b : BalancesStrategy)
    (op : Op X) (hb : onlyHoldings b) : onlyHoldings (op.run ToLower b) := by
  cases op with
  | Store holdings => exact onlyHoldings_Store ToLower b holdings hb
  | Load name => exact hb
  | Currency name code accountID => exact hb
  | tick e => exact onlyHoldings_Store ToLower b e.UpdateAccountInfo.1 hb
  | event c e x =>
    show onlyHoldings (c.run b e x).1
    rw [Callback.run_eq]
    exact hb

theorem onlyHoldings_foldl {X : Type} (ToLower : String → String) (ops : List (Op X))
    (b : BalancesStrategy) (hb : onlyHoldings b) :
    onlyHoldings (ops.foldl (Op.run ToLower) b) := by
  induction ops generalizing b with
  | nil => exact hb
  | cons op rest ih => exact ih _ (onlyHoldings_run ToLower b op hb)

theorem Load_ok_of_onlyHoldings (ToLower : String → String) (b : BalancesStrategy)
    (n : String) (hb : onlyHoldings b) :
    ∃ result, Load ToLower b n = Except.ok result := by
  cases hl : b.balances.Load (ToLower n) with
  | none => exact ⟨(Holdings.zero, false), by simp only [Load, hl]⟩
  | some value =>
    cases value with
    | holdings h => exact ⟨(h, true), by simp only [Load, hl]⟩
    | other typeName =>
      have hmem := mem_of_lookup_eq_some (ToLower n) (Any.other typeName) b.balances.entries hl
      have := hb _ hmem
      cases this

theorem Load_panics_on_foreign_value :
    Load asciiToLower ⟨⟨[("binance", Any.other "int")]⟩, ⟨1000⟩⟩ "Binance" =
      Except.error "have int, want account.Holdings" := by
  decide

theorem Currency_returns_or_panics (ToLower : String → String) (b : BalancesStrategy)
    (exchangeName code accountID : String) :
    (∃ msg, Load ToLower b exchangeName = Except.error msg ∧
        Currency ToLower b exchangeName code accountID = Except.error msg) ∨
    ∃ balance err, Currency ToLower b exchangeName code accountID = Except.ok (balance, err) ∧
      (err = none ∨ err = some Error.ErrHoldingsNotFound ∨
        err = some Error.ErrCurrencyNotFound) ∧
      err ≠ some Error.ErrAccountIndexOutOfRange ∧
      (err ≠ none → balance = Balance.zero) := by
  cases hl : Load ToLower b exchangeName with
  | error msg =>
    exact Or.inl ⟨msg, rfl, Currency_of_panic ToLower b exchangeName code accountID msg hl⟩
  | ok result =>
    obtain ⟨holdings, loaded⟩ := result
    right
    cases loaded with
    | false =>
      refine ⟨Balance.zero, some Error.ErrHoldingsNotFound,
        Currency_of_missing ToLower b exchangeName code accountID holdings hl,
        Or.inr (Or.inl rfl), ?_, fun _ => rfl⟩
      intro hc
      cases hc
    | true =>
      rw [Currency_of_loaded ToLower b exchangeName code accountID holdings hl]
      cases hs : scanAccounts code accountID holdings.Accounts with
      | none =>
        refine ⟨Balance.zero, some Error.ErrCurrencyNotFound, rfl, Or.inr (Or.inr rfl), ?_,
          fun _ => rfl⟩
        intro hc
        cases hc
      | some found =>
        refine ⟨found, none, rfl, Or.inl rfl, ?_, fun hne => absurd rfl hne⟩
        intro hc
        cases hc

/-! ## Store and Load -/

/-- C1. Load after Store under a name equal ignoring letter case to the
stored holdings' exchange name returns those holdings and true, in every cache
state: whatever the name held before is replaced. -/
theorem load_after_store_same_name (ToLower : String → String) (b : BalancesStrategy)
    (h : Holdings) (n : String) (hn : sameName ToLower n h.Exchange) :
    Load ToLower (Store ToLower b h) n = Except.ok (h, true) := by
  rw [Load_Store]
  exact if_pos hn

/-- The instance of C1 named in the specification: holdings of "Binance" are
stored over an older snapshot of the same venue and read back as "binance". -/
theorem load_after_store_same_name_witness :
    sameName asciiToLower "binance" "Binance" ∧
    Load asciiToLower
      (Store asciiToLower
        (Store asciiToLower (NewBalancesStrategy 1000) ⟨"BINANCE", [⟨"old", "spot", []⟩]⟩)
        ⟨"Binance", [⟨"acc1", "spot", [⟨⟨"BTC"⟩, 5, 1⟩]⟩]⟩)
      "binance" = Except.ok (⟨"Binance", [⟨"acc1", "spot", [⟨⟨"BTC"⟩, 5, 1⟩]⟩]⟩, true) :=
  ⟨by decide, load_after_store_same_name asciiToLower _ _ "binance" (by decide)⟩

/-- C2. On a cache built by NewBalancesStrategy and any sequence of Store
calls, none for a name equal to `n` ignoring letter case, Load of `n` returns
the zero-value holdings and false. -/
theorem load_never_stored (ToLower : String → String) (refreshRate : Int)
    (stored : List Holdings) (n : String)
    (hn : ∀ h ∈ stored, ¬ sameName ToLower h.Exchange n) :
    Load ToLower (stored.foldl (Store ToLower) (NewBalancesStrategy refreshRate)) n =
      Except.ok (Holdings.zero, false) := by
  rw [Load_foldl_Store_of_ne ToLower stored _ n (fun h hh e => hn h hh e.symm),
    Load_NewBalancesStrategy]

/-- An instance of C2: two venues are stored and "unknown" is looked up. -/
theorem load_never_stored_witness :
    (∀ h ∈ [(⟨"Kraken", []⟩ : Holdings), ⟨"Binance", [⟨"acc1", "spot", []⟩]⟩],
      ¬ sameName asciiToLower h.Exchange "unknown") ∧
    Load asciiToLower
      ([(⟨"Kraken", []⟩ : Holdings), ⟨"Binance", [⟨"acc1", "spot", []⟩]⟩].foldl
        (Store asciiToLower) (NewBalancesStrategy 1000))
      "unknown" = Except.ok (Holdings.zero, false) :=
  ⟨by decide, load_never_stored asciiToLower 1000 _ "unknown" (by decide)⟩

/-! ## Currency -/

/-- C3. Currency returns ErrHoldingsNotFound exactly when Load of the venue
name returns found=false, for every cache state and all arguments. -/
theorem currency_holdings_not_found_iff (ToLower : String → String) (b : BalancesStrategy)
    (exchangeName code accountID : String) :
    (∃ balance, Currency ToLower b exchangeName code accountID =
        Except.ok (balance, some Error.ErrHoldingsNotFound)) ↔
      ∃ holdings, Load ToLower b exchangeName = Except.ok (holdings, false) := by
  cases hl : Load ToLower b exchangeName with
  | error msg =>
    rw [Currency_of_panic ToLower b exchangeName code accountID msg hl]
    simp
  | ok result =>
    obtain ⟨holdings, loaded⟩ := result
    cases loaded with
    | false =>
      rw [Currency_of_missing ToLower b exchangeName code accountID holdings hl]
      simp
    | true =>
      rw [Currency_of_loaded ToLower b exchangeName code accountID holdings hl]
      cases hs : scanAccounts code accountID holdings.Accounts with
      | none => simp
      | some balance => simp

/-- C4. When Load finds a snapshot for the venue, Currency returns normally;
its error is ErrCurrencyNotFound exactly when no sub-account of the snapshot
with ID equal to `accountID` holds a currency whose code equals `code`, and is
nil otherwise. -/
theorem currency_not_found_iff (ToLower : String → String) (b : BalancesStrategy)
    (exchangeName code accountID : String) (holdings : Holdings)
    (hl : Load ToLower b exchangeName = Except.ok (holdings, true)) :
    ∃ balance err, Currency ToLower b exchangeName code accountID = Except.ok (balance, err) ∧
      (err = some Error.ErrCurrencyNotFound ↔
        ¬ ∃ sub ∈ holdings.Accounts, sub.ID = accountID ∧
            ∃ entry ∈ sub.Currencies, entry.CurrencyName.String = code) ∧
      (err ≠ some Error.ErrCurrencyNotFound → err = none) := by
  rw [Currency_of_loaded ToLower b exchangeName code accountID holdings hl]
  cases hs : scanAccounts code accountID holdings.Accounts with
  | none =>
    refine ⟨Balance.zero, some Error.ErrCurrencyNotFound, by simp, ?_, ?_⟩
    · simp only [true_iff]
      exact (scanAccounts_eq_none code accountID holdings).1 hs
    · intro hne
      exact absurd rfl hne
  | some balance =>
    refine ⟨balance, none, by simp, ?_, ?_⟩
    · have hnot : ¬ scanAccounts code accountID holdings.Accounts = none := by
        rw [hs]
        exact Option.some_ne_none balance
      rw [scanAccounts_eq_none] at hnot
      constructor
      · intro hc
        cases hc
      · intro hno
        exact absurd hno hnot
    · intro _
      rfl

/-- An instance of C4: a snapshot of "Binance" whose sub-account "acc1" holds
BTC only. -/
theorem currency_not_found_iff_witness :
    Load asciiToLower
        (Store asciiToLower (NewBalancesStrategy 1000)
          ⟨"Binance", [⟨"acc1", "spot", [⟨⟨"BTC"⟩, 5, 1⟩]⟩]⟩)
        "binance" = Except.ok (⟨"Binance", [⟨"acc1", "spot", [⟨⟨"BTC"⟩, 5, 1⟩]⟩]⟩, true) ∧
    ∃ balance err,
      Currency asciiToLower
          (Store asciiToLower (NewBalancesStrategy 1000)
            ⟨"Binance", [⟨"acc1", "spot", [⟨⟨"BTC"⟩, 5, 1⟩]⟩]⟩)
          "binance" "ETH" "acc1" = Except.ok (balance, err) ∧
      (err = some Error.ErrCurrencyNotFound ↔
        ¬ ∃ sub ∈ (⟨"Binance", [⟨"acc1", "spot", [⟨⟨"BTC"⟩, 5, 1⟩]⟩]⟩ : Holdings).Accounts,
            sub.ID = "acc1" ∧ ∃ entry ∈ sub.Currencies, entry.CurrencyName.String = "ETH") ∧
      (err ≠ some Error.ErrCurrencyNotFound → err = none) :=
  ⟨by decide, currency_not_found_iff asciiToLower _ "binance" "ETH" "acc1" _ (by decide)⟩

/-- C5. First match wins: when Currency succeeds, the snapshot of the venue
is found and the balance returned is the first entry of the scan (sub-accounts
in list order, the currencies of each in list order) whose sub-account ID
equals `accountID` and whose code equals `code`; every entry before it fails
to match, and whatever comes after it is not looked at. -/
theorem currency_first_match (ToLower : String → String) (b : BalancesStrategy)
    (exchangeName code accountID : String) (balance : Balance)
    (hc : Currency ToLower b exchangeName code accountID = Except.ok (balance, none)) :
    ∃ holdings, Load ToLower b exchangeName = Except.ok (holdings, true) ∧
      ∃ before after, scanOrder holdings = before ++ (accountID, balance) :: after ∧
        isMatch code accountID (accountID, balance) ∧
        ∀ entry ∈ before, ¬ isMatch code accountID entry := by
  cases hl : Load ToLower b exchangeName with
  | error msg =>
    rw [Currency_of_panic ToLower b exchangeName code accountID msg hl] at hc
    cases hc
  | ok result =>
    obtain ⟨holdings, loaded⟩ := result
    cases loaded with
    | false =>
      rw [Currency_of_missing ToLower b exchangeName code accountID holdings hl] at hc
      simp at hc
    | true =>
      rw [Currency_of_loaded ToLower b exchangeName code accountID holdings hl] at hc
      cases hs : scanAccounts code accountID holdings.Accounts with
      | none => rw [hs] at hc; simp at hc
      | some found =>
        rw [hs] at hc
        have hfound : found = balance := by simpa using hc
        subst hfound
        exact ⟨holdings, rfl, scanAccounts_eq_some code accountID holdings found hs⟩

/-- An instance of C5: "acc1" occurs twice and BTC occurs twice; the first
"acc1" lacks BTC, so the scan goes on, and of the two BTC lines of the second
"acc1" the earlier one (total 7) is returned. -/
theorem currency_first_match_witness :
    Currency asciiToLower
        (Store asciiToLower (NewBalancesStrategy 1000)
          ⟨"Binance",
            [⟨"acc1", "spot", [⟨⟨"ETH"⟩, 3, 0⟩]⟩, ⟨"acc2", "spot", [⟨⟨"BTC"⟩, 9, 0⟩]⟩,
             ⟨"acc1", "spot", [⟨⟨"BTC"⟩, 7, 0⟩, ⟨⟨"BTC"⟩, 8, 0⟩]⟩,
             ⟨"acc1", "spot", [⟨⟨"BTC"⟩, 6, 0⟩]⟩]⟩)
        "BINANCE" "BTC" "acc1" = Except.ok (⟨⟨"BTC"⟩, 7, 0⟩, none) ∧
    ∃ holdings,
      Load asciiToLower
          (Store asciiToLower (NewBalancesStrategy 1000)
            ⟨"Binance",
              [⟨"acc1", "spot", [⟨⟨"ETH"⟩, 3, 0⟩]⟩, ⟨"acc2", "spot", [⟨⟨"BTC"⟩, 9, 0⟩]⟩,
               ⟨"acc1", "spot", [⟨⟨"BTC"⟩, 7, 0⟩, ⟨⟨"BTC"⟩, 8, 0⟩]⟩,
               ⟨"acc1", "spot", [⟨⟨"BTC"⟩, 6, 0⟩]⟩]⟩)
          "BINANCE" = Except.ok (holdings, true) ∧
      ∃ before after, scanOrder holdings = before ++ ("acc1", ⟨⟨"BTC"⟩, 7, 0⟩) :: after ∧
        isMatch "BTC" "acc1" ("acc1", ⟨⟨"BTC"⟩, 7, 0⟩) ∧
        ∀ entry ∈ before, ¬ isMatch "BTC" "acc1" entry :=
  ⟨by decide, currency_first_match asciiToLower _ "BINANCE" "BTC" "acc1" _ (by decide)⟩

/-! ## tick -/

/-- C6, the code at the failing input. The cache holds a good snapshot of
"Binance"; the venue's fetch fails, returning holdings that carry the venue's
name and no account, together with an error. tick logs the error and stores
those holdings all the same: Load of "binance" now returns the empty snapshot,
not the good one. -/
theorem tick_failed_fetch_overwrites :
    Load asciiToLower
        (Store asciiToLower (NewBalancesStrategy 1000)
          ⟨"Binance", [⟨"acc1", "spot", [⟨⟨"BTC"⟩, 5, 1⟩]⟩]⟩)
        "binance" = Except.ok (⟨"Binance", [⟨"acc1", "spot", [⟨⟨"BTC"⟩, 5, 1⟩]⟩]⟩, true) ∧
    tick asciiToLower
        (Store asciiToLower (NewBalancesStrategy 1000)
          ⟨"Binance", [⟨"acc1", "spot", [⟨⟨"BTC"⟩, 5, 1⟩]⟩]⟩)
        ⟨"Binance", (⟨"Binance", []⟩, some "connection refused")⟩ =
      (Store asciiToLower
          (Store asciiToLower (NewBalancesStrategy 1000)
            ⟨"Binance", [⟨"acc1", "spot", [⟨⟨"BTC"⟩, 5, 1⟩]⟩]⟩)
          ⟨"Binance", []⟩,
        [⟨"Binance", "connection refused"⟩]) ∧
    Load asciiToLower
        (tick asciiToLower
          (Store asciiToLower (NewBalancesStrategy 1000)
            ⟨"Binance", [⟨"acc1", "spot", [⟨⟨"BTC"⟩, 5, 1⟩]⟩]⟩)
          ⟨"Binance", (⟨"Binance", []⟩, some "connection refused")⟩).1
        "binance" = Except.ok (⟨"Binance", []⟩, true) := by
  decide

/-- C7 as stated fails: on a new cache, a venue named "binance" whose fetch
succeeds with holdings that carry the exchange name "kraken" leaves nothing
under "binance"; Load of the venue's name returns the zero holdings and false,
and the snapshot sits under "kraken". -/
theorem tick_stores_under_venue_name_counterexample :
    (⟨"binance", (⟨"kraken", [⟨"acc1", "spot", [⟨⟨"BTC"⟩, 5, 1⟩]⟩]⟩, none)⟩ :
        IBotExchange).UpdateAccountInfo =
      (⟨"kraken", [⟨"acc1", "spot", [⟨⟨"BTC"⟩, 5, 1⟩]⟩]⟩, none) ∧
    Load asciiToLower
        (tick asciiToLower (NewBalancesStrategy 1000)
          ⟨"binance", (⟨"kraken", [⟨"acc1", "spot", [⟨⟨"BTC"⟩, 5, 1⟩]⟩]⟩, none)⟩).1
        (⟨"binance", (⟨"kraken", [⟨"acc1", "spot", [⟨⟨"BTC"⟩, 5, 1⟩]⟩]⟩, none)⟩ :
          IBotExchange).GetName = Except.ok (Holdings.zero, false) ∧
    Load asciiToLower
        (tick asciiToLower (NewBalancesStrategy 1000)
          ⟨"binance", (⟨"kraken", [⟨"acc1", "spot", [⟨⟨"BTC"⟩, 5, 1⟩]⟩]⟩, none)⟩).1
        (⟨"binance", (⟨"kraken", [⟨"acc1", "spot", [⟨⟨"BTC"⟩, 5, 1⟩]⟩]⟩, none)⟩ :
          IBotExchange).GetName ≠
      Except.ok (⟨"kraken", [⟨"acc1", "spot", [⟨⟨"BTC"⟩, 5, 1⟩]⟩]⟩, true) := by
  decide

/-- C7, amended. After tick runs for a venue whose fetch succeeds with
holdings h, the snapshot is stored under the exchange name that h carries:
Load of h.Exchange returns (h, true), and so does Load of the venue's name
whenever that name equals h.Exchange ignoring letter case. Nothing is logged. -/
theorem tick_success_stores_under_holdings_name (ToLower : String → String)
    (b : BalancesStrategy) (e : IBotExchange) (h : Holdings)
    (hfetch : e.UpdateAccountInfo = (h, none)) :
    Load ToLower (tick ToLower b e).1 h.Exchange = Except.ok (h, true) ∧
    (sameName ToLower e.GetName h.Exchange →
      Load ToLower (tick ToLower b e).1 e.GetName = Except.ok (h, true)) ∧
    (tick ToLower b e).2 = [] := by
  have hstate : (tick ToLower b e).1 = Store ToLower b h := by
    rw [tick_state, hfetch]
  refine ⟨?_, ?_, ?_⟩
  · rw [hstate, Load_Store]
    exact if_pos rfl
  · intro hname
    rw [hstate, Load_Store]
    exact if_pos hname
  · unfold tick
    rw [hfetch]

/-- An instance of amended C7: the venue "Binance" returns holdings named
"binance". -/
theorem tick_success_stores_under_holdings_name_witness :
    (⟨"Binance", (⟨"binance", [⟨"acc1", "spot", [⟨⟨"BTC"⟩, 5, 1⟩]⟩]⟩, none)⟩ :
        IBotExchange).UpdateAccountInfo =
      (⟨"binance", [⟨"acc1", "spot", [⟨⟨"BTC"⟩, 5, 1⟩]⟩]⟩, none) ∧
    Load asciiToLower
        (tick asciiToLower (NewBalancesStrategy 1000)
          ⟨"Binance", (⟨"binance", [⟨"acc1", "spot", [⟨⟨"BTC"⟩, 5, 1⟩]⟩]⟩, none)⟩).1
        "Binance" = Except.ok (⟨"binance", [⟨"acc1", "spot", [⟨⟨"BTC"⟩, 5, 1⟩]⟩]⟩, true) :=
  ⟨rfl,
    (tick_success_stores_under_holdings_name asciiToLower (NewBalancesStrategy 1000)
      ⟨"Binance", (⟨"binance", [⟨"acc1", "spot", [⟨⟨"BTC"⟩, 5, 1⟩]⟩]⟩, none)⟩
      ⟨"binance", [⟨"acc1", "spot", [⟨⟨"BTC"⟩, 5, 1⟩]⟩]⟩ rfl).2.1 (by decide)⟩

/-! ## Frame properties -/

/-- C8. Store for one venue leaves every other name as it was: Load of a
name that differs from the stored holdings' exchange name ignoring letter case
returns the same result after the Store as before. Hence, when holdings whose
exchange names are pairwise distinct ignoring letter case are stored in any
order, each of them is returned by Load afterwards. -/
theorem store_keeps_other_names (ToLower : String → String) (b : BalancesStrategy)
    (h : Holdings) (n : String) (writers order : List Holdings)
    (hn : ¬ sameName ToLower n h.Exchange)
    (horder : order.Perm writers)
    (hdistinct : writers.Pairwise (fun y z => ¬ sameName ToLower y.Exchange z.Exchange)) :
    Load ToLower (Store ToLower b h) n = Load ToLower b n ∧
    ∀ x ∈ writers, Load ToLower (order.foldl (Store ToLower) b) x.Exchange =
      Except.ok (x, true) := by
  constructor
  · rw [Load_Store]
    exact if_neg hn
  · intro x hx
    have hpw : order.Pairwise (fun y z => ¬ sameName ToLower y.Exchange z.Exchange) :=
      hdistinct.perm horder.symm (fun hyz hzy => hyz (Eq.symm hzy))
    exact Load_foldl_Store_of_mem ToLower order b x hpw (horder.mem_iff.2 hx)

/-- An instance of C8: over a cache holding "Kraken", three venues are
stored in another order than they are listed. -/
theorem store_keeps_other_names_witness :
    ¬ sameName asciiToLower "kraken" "Binance" ∧
    Load asciiToLower
        (Store asciiToLower (Store asciiToLower (NewBalancesStrategy 1000) ⟨"Kraken", []⟩)
          ⟨"Binance", []⟩)
        "kraken" =
      Load asciiToLower (Store asciiToLower (NewBalancesStrategy 1000) ⟨"Kraken", []⟩)
        "kraken" ∧
    ∀ x ∈ [(⟨"Binance", []⟩ : Holdings), ⟨"Bitfinex", [⟨"a", "spot", []⟩]⟩, ⟨"FTX", []⟩],
      Load asciiToLower
          ([(⟨"FTX", []⟩ : Holdings), ⟨"Binance", []⟩, ⟨"Bitfinex", [⟨"a", "spot", []⟩]⟩].foldl
            (Store asciiToLower)
            (Store asciiToLower (NewBalancesStrategy 1000) ⟨"Kraken", []⟩))
          x.Exchange = Except.ok (x, true) :=
  ⟨by decide,
    store_keeps_other_names asciiToLower
      (Store asciiToLower (NewBalancesStrategy 1000) ⟨"Kraken", []⟩)
      ⟨"Binance", []⟩ "kraken"
      [⟨"Binance", []⟩, ⟨"Bitfinex", [⟨"a", "spot", []⟩]⟩, ⟨"FTX", []⟩]
      [⟨"FTX", []⟩, ⟨"Binance", []⟩, ⟨"Bitfinex", [⟨"a", "spot", []⟩]⟩]
      (by decide) (by decide) (by decide)⟩

/-- C9. No call deletes a cache entry: for Store, Load, Currency, tick and
every event callback, a name that Load finds before the call is found after
it. -/
theorem entries_never_deleted {X : Type} (ToLower : String → String) (b : BalancesStrategy)
    (op : Op X) (n : String)
    (hfound : ∃ h, Load ToLower b n = Except.ok (h, true)) :
    ∃ h, Load ToLower (op.run ToLower b) n = Except.ok (h, true) := by
  have hstore : ∀ stored : Holdings,
      ∃ h, Load ToLower (Store ToLower b stored) n = Except.ok (h, true) := by
    intro stored
    rw [Load_Store]
    by_cases hk : ToLower n = ToLower stored.Exchange
    · exact ⟨stored, if_pos hk⟩
    · rw [if_neg hk]
      exact hfound
  cases op with
  | Store holdings => exact hstore holdings
  | Load name => exact hfound
  | Currency name code accountID => exact hfound
  | tick e => exact hstore e.UpdateAccountInfo.1
  | event c e x =>
    show ∃ h, Load ToLower (c.run b e x).1 n = Except.ok (h, true)
    rw [Callback.run_eq]
    exact hfound

/-- An instance of C9: a tick whose fetch fails, with holdings named after
another venue, on a cache that holds "Binance". -/
theorem entries_never_deleted_witness :
    (∃ h, Load asciiToLower (Store asciiToLower (NewBalancesStrategy 1000) ⟨"Binance", []⟩)
        "binance" = Except.ok (h, true)) ∧
    ∃ h, Load asciiToLower
        ((Op.tick ⟨"Kraken", (⟨"", []⟩, some "timeout")⟩ : Op Unit).run asciiToLower
          (Store asciiToLower (NewBalancesStrategy 1000) ⟨"Binance", []⟩))
        "binance" = Except.ok (h, true) :=
  ⟨⟨⟨"Binance", []⟩, by decide⟩,
    entries_never_deleted asciiToLower _ _ "binance" ⟨⟨"Binance", []⟩, by decide⟩⟩

/-- C10. Each of the eight event callbacks (OnFunding, OnPrice, OnKline,
OnOrderBook, OnOrder, OnModify, OnBalanceChange, OnUnrecognized) is a no-op:
in every cache state and for every payload it returns a nil error and leaves
the result of Load unchanged for every name. -/
theorem event_callbacks_are_noops {F P K B O M C U : Type} (ToLower : String → String)
    (b : BalancesStrategy) (e : IBotExchange)
    (funding : F) (price : P) (kline : K) (book : B) (order : O) (modify : M) (change : C)
    (unrecognized : U) :
    isNoop ToLower b (OnFunding b e funding) ∧
    isNoop ToLower b (OnPrice b e price) ∧
    isNoop ToLower b (OnKline b e kline) ∧
    isNoop ToLower b (OnOrderBook b e book) ∧
    isNoop ToLower b (OnOrder b e order) ∧
    isNoop ToLower b (OnModify b e modify) ∧
    isNoop ToLower b (OnBalanceChange b e change) ∧
    isNoop ToLower b (OnUnrecognized b e unrecognized) := by
  refine ⟨?_, ?_, ?_, ?_, ?_, ?_, ?_, ?_⟩ <;> exact ⟨rfl, fun _ => rfl⟩

/-! ## Creation of entries, construction -/

/-- C11, the code at the failing input. On a new cache, where no name is
found, the fetch of "Binance" fails and returns the zero holdings with an
error. tick logs the error and stores the zero holdings under the empty key:
Load of the empty name now returns found=true. -/
theorem tick_failed_fetch_creates_entry :
    Load asciiToLower (NewBalancesStrategy 1000) "" = Except.ok (Holdings.zero, false) ∧
    tick asciiToLower (NewBalancesStrategy 1000) ⟨"Binance", (Holdings.zero, some "timeout")⟩ =
      (⟨⟨[("", Any.holdings Holdings.zero)]⟩, ⟨1000⟩⟩, [⟨"Binance", "timeout"⟩]) ∧
    Load asciiToLower
        (tick asciiToLower (NewBalancesStrategy 1000)
          ⟨"Binance", (Holdings.zero, some "timeout")⟩).1
        "" = Except.ok (Holdings.zero, true) := by
  decide

/-- C12 as stated fails: NewBalancesStrategy hands back a strategy for the
intervals 0 and -1 as for any other, and the cache of that strategy stores and
loads. -/
theorem new_strategy_rejects_bad_interval_counterexample :
    NewBalancesStrategy 0 = ⟨SyncMap.empty, ⟨0⟩⟩ ∧
    NewBalancesStrategy (-1) = ⟨SyncMap.empty, ⟨-1⟩⟩ ∧
    Load asciiToLower
        (Store asciiToLower (NewBalancesStrategy (-1))
          ⟨"Binance", [⟨"acc1", "spot", [⟨⟨"BTC"⟩, 5, 1⟩]⟩]⟩)
        "binance" = Except.ok (⟨"Binance", [⟨"acc1", "spot", [⟨⟨"BTC"⟩, 5, 1⟩]⟩]⟩, true) ∧
    Currency asciiToLower
        (Store asciiToLower (NewBalancesStrategy 0)
          ⟨"Binance", [⟨"acc1", "spot", [⟨⟨"BTC"⟩, 5, 1⟩]⟩]⟩)
        "binance" "BTC" "acc1" = Except.ok (⟨⟨"BTC"⟩, 5, 1⟩, none) := by
  decide

/-- C12, amended. NewBalancesStrategy does not validate the refresh interval:
for every interval, zero and negative included, it returns a strategy whose
ticker carries the interval as given and whose cache is empty and works (no
name is found; holdings stored are loaded back). -/
theorem new_strategy_accepts_every_interval (ToLower : String → String) (refreshRate : Int)
    (h : Holdings) (n : String) :
    (NewBalancesStrategy refreshRate).ticker.Interval = refreshRate ∧
    (NewBalancesStrategy refreshRate).balances = SyncMap.empty ∧
    Load ToLower (NewBalancesStrategy refreshRate) n = Except.ok (Holdings.zero, false) ∧
    Load ToLower (Store ToLower (NewBalancesStrategy refreshRate) h) h.Exchange =
      Except.ok (h, true) := by
  refine ⟨rfl, rfl, Load_NewBalancesStrategy ToLower refreshRate n, ?_⟩
  rw [Load_Store]
  exact if_pos rfl

/-! ## Safety of Load -/

/-- C14. In every state reached from NewBalancesStrategy by any sequence of
calls (Store, Load, Currency, tick, event callbacks) every value of the
balances map is an account.Holdings, so Load returns normally, without panic,
for every name. -/
theorem load_never_panics {X : Type} (ToLower : String → String) (refreshRate : Int)
    (ops : List (Op X)) (n : String) :
    onlyHoldings (runOps ToLower refreshRate ops) ∧
    ∃ result, Load ToLower (runOps ToLower refreshRate ops) n = Except.ok result := by
  have hinv : onlyHoldings (runOps ToLower refreshRate ops) :=
    onlyHoldings_foldl ToLower ops _ (onlyHoldings_NewBalancesStrategy refreshRate)
  exact ⟨hinv, Load_ok_of_onlyHoldings ToLower _ n hinv⟩

/-! ## Queries -/

/-- C15. Load and Currency are read-only: in every cache state and for all
arguments, whether the query finds something, fails or panics, the result of
Load for every name is the same after the call as before it. -/
theorem queries_are_read_only {X : Type} (ToLower : String → String) (b : BalancesStrategy)
    (exchangeName code accountID n : String) :
    Load ToLower ((Op.Load exchangeName : Op X).run ToLower b) n = Load ToLower b n ∧
    Load ToLower ((Op.Currency exchangeName code accountID : Op X).run ToLower b) n =
      Load ToLower b n :=
  ⟨rfl, rfl⟩

/-- C16. Whenever Currency returns, its error is nil, ErrHoldingsNotFound or
ErrCurrencyNotFound, never ErrAccountIndexOutOfRange, and a non-nil error
comes with the zero-value balance; the only other outcome is the panic of
Load. In a state reached from NewBalancesStrategy by any sequence of calls
Currency always returns, with such an error. -/
theorem currency_error_values {X : Type} (ToLower : String → String) (b : BalancesStrategy)
    (refreshRate : Int) (ops : List (Op X)) (exchangeName code accountID : String) :
    ((∃ msg, Load ToLower b exchangeName = Except.error msg ∧
        Currency ToLower b exchangeName code accountID = Except.error msg) ∨
      ∃ balance err, Currency ToLower b exchangeName code accountID = Except.ok (balance, err) ∧
        (err = none ∨ err = some Error.ErrHoldingsNotFound ∨
          err = some Error.ErrCurrencyNotFound) ∧
        err ≠ some Error.ErrAccountIndexOutOfRange ∧
        (err ≠ none → balance = Balance.zero)) ∧
    ∃ balance err,
      Currency ToLower (runOps ToLower refreshRate ops) exchangeName code accountID =
        Except.ok (balance, err) ∧
      (err = none ∨ err = some Error.ErrHoldingsNotFound ∨
        err = some Error.ErrCurrencyNotFound) ∧
      err ≠ some Error.ErrAccountIndexOutOfRange ∧
      (err ≠ none → balance = Balance.zero) := by
  refine ⟨Currency_returns_or_panics ToLower b exchangeName code accountID, ?_⟩
  rcases Currency_returns_or_panics ToLower (runOps ToLower refreshRate ops) exchangeName code
    accountID with ⟨msg, hload, _⟩ | hret
  · have hinv : onlyHoldings (runOps ToLower refreshRate ops) :=
      onlyHoldings_foldl ToLower ops _ (onlyHoldings_NewBalancesStrategy refreshRate)
    obtain ⟨result, hok⟩ := Load_ok_of_onlyHoldings ToLower _ exchangeName hinv
    rw [hok] at hload
    cases hload
  · exact hret

/-- C17. Currency reads the venue name ignoring letter case: two names equal
ignoring letter case give the same balance and the same error in every cache
state. Code and sub-account ID are compared exactly: on a cache holding BTC in
"acc1" of "Binance", the lookup of "BTC" in "acc1" succeeds, and that of "btc"
in "acc1" or of "BTC" in "ACC1" returns ErrCurrencyNotFound. -/
theorem currency_case_sensitivity (ToLower : String → String) (b : BalancesStrategy)
    (n1 n2 code accountID : String) (hn : sameName ToLower n1 n2) :
    Currency ToLower b n1 code accountID = Currency ToLower b n2 code accountID ∧
    ∃ cache : BalancesStrategy,
      Currency asciiToLower cache "binance" "BTC" "acc1" = Except.ok (⟨⟨"BTC"⟩, 5, 1⟩, none) ∧
      sameName asciiToLower "btc" "BTC" ∧
      Currency asciiToLower cache "binance" "btc" "acc1" =
        Except.ok (Balance.zero, some Error.ErrCurrencyNotFound) ∧
      sameName asciiToLower "ACC1" "acc1" ∧
      Currency asciiToLower cache "binance" "BTC" "ACC1" =
        Except.ok (Balance.zero, some Error.ErrCurrencyNotFound) := by
  constructor
  · unfold Currency
    rw [Load_congr ToLower b n1 n2 hn]
  · exact ⟨Store asciiToLower (NewBalancesStrategy 1000)
      ⟨"Binance", [⟨"acc1", "spot", [⟨⟨"BTC"⟩, 5, 1⟩]⟩]⟩, by decide⟩

/-- An instance of C17: "BINANCE" and "binance" on a cache holding BTC in
"acc1" of "Binance". -/
theorem currency_case_sensitivity_witness :
    sameName asciiToLower "BINANCE" "binance" ∧
    Currency asciiToLower
        (Store asciiToLower (NewBalancesStrategy 1000)
          ⟨"Binance", [⟨"acc1", "spot", [⟨⟨"BTC"⟩, 5, 1⟩]⟩]⟩)
        "BINANCE" "BTC" "acc1" =
      Currency asciiToLower
        (Store asciiToLower (NewBalancesStrategy 1000)
          ⟨"Binance", [⟨"acc1", "spot", [⟨⟨"BTC"⟩, 5, 1⟩]⟩]⟩)
        "binance" "BTC" "acc1" :=
  ⟨by decide,
    (currency_case_sensitivity asciiToLower
      (Store asciiToLower (NewBalancesStrategy 1000)
        ⟨"Binance", [⟨"acc1", "spot", [⟨⟨"BTC"⟩, 5, 1⟩]⟩]⟩)
      "BINANCE" "binance" "BTC" "acc1" (by decide)).1⟩

end Dola
